import Mathlib

/-!
Verification of the BeatChecker license client (src/licensing.py) against its
specification. The Python module is shallowly embedded: naive `datetime`
values become a record of calendar fields with comparison and subtraction
through an epoch-seconds conversion, the Cryptolens `LicenseKey` object
becomes a record, the manager object state becomes an explicit state record,
and the remote authority call `Key.activate` is supplied as a parameter (its
`(record | None, message)` result). Python `None`-or-empty truthiness on the
authority access token, RSA key and error message is modelled by the empty
string; `None` for optional record fields is `Option.none`. Exceptions are
modelled by `Except String` carrying the `LicenseError` message; every raise
site in the source precedes any mutation of the manager fields, so a raising
call leaves the state unchanged (`step` keeps the old state on `.error`).
-/

namespace Licensing

/-- Calendar timestamp mirroring a Python naive `datetime` at seconds
precision (the licensing code never inspects sub-second fields). -/
structure DateTime where
  year : Nat
  month : Nat
  day : Nat
  hour : Nat
  minute : Nat
  second : Nat
deriving DecidableEq

/-- Days since 1970-01-01 of a civil date (the standard civil-from-days
inverse used for Python `datetime` day arithmetic). -/
def daysFromCivil (t : DateTime) : Int :=
  let y : Int := if t.month ≤ 2 then (t.year : Int) - 1 else (t.year : Int)
  let era : Int := (if 0 ≤ y then y else y - 399) / 400
  let yoe : Int := y - era * 400
  let mp : Int := ((t.month : Int) + 9) % 12
  let doy : Int := (153 * mp + 2) / 5 + (t.day : Int) - 1
  let doe : Int := yoe * 365 + yoe / 4 - yoe / 100 + doy
  era * 146097 + doe - 719468

/-- Seconds since the epoch; `datetime` subtraction `total_seconds()` is the
difference of these values. -/
def DateTime.toSeconds (t : DateTime) : Int :=
  daysFromCivil t * 86400 + (t.hour : Int) * 3600 + (t.minute : Int) * 60 + (t.second : Int)

/-- Chronological comparison of two datetimes, as Python `<`. -/
def DateTime.lt (a b : DateTime) : Bool :=
  decide (a.toSeconds < b.toSeconds)

/-- Two-digit zero padding, as `strftime` for `%m`, `%d`, and time fields. -/
def pad2 (n : Nat) : String :=
  if n < 10 then "0" ++ toString n else toString n

/-- Four-digit zero padding, as `strftime` for `%Y`. -/
def pad4 (n : Nat) : String :=
  if n < 10 then "000" ++ toString n
  else if n < 100 then "00" ++ toString n
  else if n < 1000 then "0" ++ toString n
  else toString n

/-- `strftime("%Y-%m-%d")`. -/
def DateTime.dateYmd (t : DateTime) : String :=
  pad4 t.year ++ "-" ++ pad2 t.month ++ "-" ++ pad2 t.day

/-- `datetime.isoformat()` for a whole-second value. -/
def DateTime.isoformat (t : DateTime) : String :=
  DateTime.dateYmd t ++ "T" ++ pad2 t.hour ++ ":" ++ pad2 t.minute ++ ":" ++ pad2 t.second

/-- Does `l` start with `p` (elementwise)? -/
def matchFront : List Char → List Char → Bool
  | [], _ => true
  | _ :: _, [] => false
  | a :: as, b :: bs => if a = b then matchFront as bs else false

/-- Does `l` contain `pat` as a contiguous run? -/
def hasSub (pat : List Char) : List Char → Bool
  | [] => matchFront pat []
  | b :: bs => matchFront pat (b :: bs) || hasSub pat bs

/-- Python substring membership `pat in s`. -/
def containsSub (s pat : String) : Bool :=
  hasSub pat.toList s.toList

/-- Python `str.lower()` (ASCII case folding, which is all the "blocked"
check needs). -/
def lowerStr (s : String) : String :=
  (s.toList.map Char.toLower).asString

/-- Python `str.strip()`: drop leading and trailing whitespace. -/
def trimStr (s : String) : String :=
  ((s.toList.dropWhile Char.isWhitespace).reverse.dropWhile Char.isWhitespace).reverse.asString

/-- Customer block of a Cryptolens license record. -/
structure Customer where
  Name : Option String
  Email : Option String
deriving DecidableEq

/-- The fields of a Cryptolens `LicenseKey` that licensing.py reads. -/
structure LicenseKey where
  key : String
  product_id : Int
  customer : Option Customer
  expires : Option DateTime
  created : Option DateTime
  sign_date : Option DateTime
  max_no_of_machines : Int
  activated_machines : List String
  block : Bool
deriving DecidableEq

/-- The configuration constants licensing.py reads from config.py. The empty
string models an unset (`None`-or-empty, Python-falsy) token or RSA key. -/
structure Config where
  LICENSE_ACCESS_TOKEN : String
  LICENSE_RSA_PUBLIC_KEY : String
  LICENSE_PRODUCT_ID : Int
deriving DecidableEq

/-- The external machine-identity primitive `Helpers.IsOnRightMachine(lic, v=2)`
for the fixed local machine code of this manager instance. -/
structure Env where
  IsOnRightMachine : LicenseKey → Bool

/-- Result of the external authority call `Key.activate`: the pair
`(result[0], result[1])`; the empty message models a Python-falsy
(`None` or empty) `result[1]`. -/
structure AuthorityResp where
  record : Option LicenseKey
  message : String
deriving DecidableEq

/-- The mutable fields of `LicenseManager` plus the persisted file: `license`
is `self._license`, `license_string` is `self._license_string`, `last_refresh`
is `self._last_refresh`, and `stored` is the decoded content of the storage
file (`none` when the file is absent or undecodable). -/
structure ManagerState where
  license : Option LicenseKey
  license_string : Option String
  last_refresh : Option DateTime
  stored : Option LicenseKey
deriving DecidableEq

/-- `key.replace("-", "").replace(" ", "")`. -/
def stripKey (k : String) : String :=
  (k.toList.filter (fun c => c != '-' && c != ' ')).asString

/-- `_mask_key` (licensing.py lines 30-36). -/
def mask_key (key : Option String) : Option String :=
  match key with
  | none => none
  | some k =>
    if k = "" then none
    else
      let stripped := stripKey k
      if stripped.length ≤ 4 then some stripped
      else some ("***" ++ (stripped.toList.drop (stripped.toList.length - 4)).asString)

/-- `self._license.expires and self._license.expires < _now()`. -/
def expired_before (lic : LicenseKey) (now : DateTime) : Bool :=
  match lic.expires with
  | some e => DateTime.lt e now
  | none => false

/-- `_is_active_unlocked` (licensing.py lines 68-76). -/
def is_active_unlocked (env : Env) (now : DateTime) (s : ManagerState) : Bool :=
  match s.license with
  | none => false
  | some lic =>
    if lic.block then false
    else if expired_before lic now then false
    else env.IsOnRightMachine lic

/-- `is_active` (licensing.py lines 91-93); the lock only serialises access. -/
def is_active (env : Env) (now : DateTime) (s : ManagerState) : Bool :=
  is_active_unlocked env now s

/-- `_inactive_reason_unlocked` (licensing.py lines 78-89). -/
def inactive_reason_unlocked (env : Env) (now : DateTime) (s : ManagerState) : String :=
  match s.license with
  | none => "BeatChecker is not activated. Please enter a license key."
  | some lic =>
    if lic.block then "Your license has been blocked. Please contact support."
    else
      let tail :=
        if !(env.IsOnRightMachine lic) then "This license is not activated on this machine."
        else "BeatChecker is not activated."
      match lic.expires with
      | some e =>
        if DateTime.lt e now then "Your license expired on " ++ DateTime.dateYmd e ++ "."
        else tail
      | none => tail

/-- `inactive_reason` (licensing.py lines 95-97). -/
def inactive_reason (env : Env) (now : DateTime) (s : ManagerState) : String :=
  inactive_reason_unlocked env now s

/-- `_should_refresh` (licensing.py lines 99-110). The guard `if not
self._license_string` is Python truthiness, hence the extra empty-string
test; `self._license and self._license.block` likewise. -/
def should_refresh (now : DateTime) (s : ManagerState) : Bool :=
  match s.license_string with
  | none => false
  | some ks =>
    if ks = "" then false
    else if (match s.license with | some lic => lic.block | none => false) then false
    else
      match s.last_refresh with
      | none => true
      | some t => decide (3600 < now.toSeconds - t.toSeconds)

/-- The refresh-policy evaluation `status()` performs before building its
snapshot (licensing.py lines 124-131): `true` means a background `refresh()`
is launched. -/
def status_triggers_refresh (now : DateTime) (s : ManagerState) : Bool :=
  should_refresh now s

/-- The dictionary `status()` returns (licensing.py lines 133-151). -/
structure StatusSnapshot where
  product_id : Int
  active : Bool
  license_key : Option String
  expires_at : Option String
  customer_name : Option String
  customer_email : Option String
  max_machines : Option Int
  allowed_machines : Option Int
  activated_machines : Nat
  activated_at : Option String
  last_validated_at : Option String
  blocked : Bool
  message : Option String
deriving DecidableEq

/-- `status` snapshot construction (licensing.py lines 133-151). -/
def status (cfg : Config) (env : Env) (now : DateTime) (s : ManagerState) : StatusSnapshot :=
  let active := is_active_unlocked env now s
  { product_id := match s.license with
      | some lic => lic.product_id
      | none => cfg.LICENSE_PRODUCT_ID
  , active := active
  , license_key := match s.license with
      | some lic => mask_key (some lic.key)
      | none => none
  , expires_at := match s.license with
      | some lic => (match lic.expires with
          | some e => some (DateTime.isoformat e)
          | none => none)
      | none => none
  , customer_name := match s.license with
      | some lic => (match lic.customer with
          | some c => c.Name
          | none => none)
      | none => none
  , customer_email := match s.license with
      | some lic => (match lic.customer with
          | some c => c.Email
          | none => none)
      | none => none
  , max_machines := match s.license with
      | some lic => some lic.max_no_of_machines
      | none => none
  , allowed_machines := none
  , activated_machines := match s.license with
      | some lic => if lic.activated_machines.isEmpty then 0 else lic.activated_machines.length
      | none => 0
  , activated_at := match s.license with
      | some lic => (match lic.created with
          | some t => some (DateTime.isoformat t)
          | none => none)
      | none => none
  , last_validated_at := match s.license with
      | some lic => (match lic.sign_date with
          | some t => some (DateTime.isoformat t)
          | none => none)
      | none => none
  , blocked := match s.license with
      | some lic => lic.block
      | none => false
  , message := if active then none else some (inactive_reason_unlocked env now s) }

/-- The message `get_rsa_key` raises when no RSA public key is configured
(licensing.py lines 44-52). -/
def rsa_key_error : String :=
  "RSA public key not configured. Please set LICENSE_RSA_PUBLIC_KEY in config.py or BEATCHECKER_LICENSE_RSA_KEY environment variable. Get your key from https://app.cryptolens.io/User/Security"

/-- `activate` (licensing.py lines 153-188). `resp` is what the authority
call `Key.activate` returns for this key on this machine. A successful run
commits the returned record, sets the cached key string, stamps the
last-refresh time and persists (`_save_state` writes the record since it is
present). -/
def activate (cfg : Config) (env : Env) (resp : AuthorityResp) (now : DateTime)
    (s : ManagerState) (license_key : String) : Except String ManagerState :=
  if trimStr license_key = "" then .error "A license key is required."
  else if cfg.LICENSE_ACCESS_TOKEN = "" then
    .error "Licensing is not configured. Missing access token."
  else if cfg.LICENSE_RSA_PUBLIC_KEY = "" then .error rsa_key_error
  else
    match resp.record with
    | none => .error (if resp.message = "" then "License activation failed." else resp.message)
    | some rec =>
      if !(env.IsOnRightMachine rec) then
        .error "This license cannot be activated on this machine."
      else
        match rec.expires with
        | some e =>
          if DateTime.lt e now then
            .error ("This license expired on " ++ DateTime.dateYmd e ++ " and cannot be activated.")
          else
            .ok { license := some rec, license_string := some rec.key
                , last_refresh := some now, stored := some rec }
        | none =>
          .ok { license := some rec, license_string := some rec.key
              , last_refresh := some now, stored := some rec }

/-- `refresh` (licensing.py lines 190-236). On a failed call whose message
contains "blocked" (case-insensitively) while a record is cached, the cached
record is patched to `block := true`, stamped and persisted; any other
failure raises. A successful call commits the returned record (note the
source does not update `_license_string` here). -/
def refresh (cfg : Config) (resp : AuthorityResp) (now : DateTime)
    (s : ManagerState) : Except String ManagerState :=
  match s.license_string with
  | none => .error "No license has been activated."
  | some ks =>
    if ks = "" then .error "No license has been activated."
    else if cfg.LICENSE_ACCESS_TOKEN = "" then
      .error "Licensing is not configured. Missing access token."
    else if cfg.LICENSE_RSA_PUBLIC_KEY = "" then .error rsa_key_error
    else
      match resp.record with
      | none =>
        let error_msg := if resp.message = "" then "License refresh failed." else resp.message
        if containsSub (lowerStr error_msg) "blocked" then
          match s.license with
          | some existing =>
            let patched : LicenseKey := { existing with block := true }
            .ok { s with license := some patched
                       , last_refresh := some now
                       , stored := some patched }
          | none => .error error_msg
        else .error error_msg
      | some rec =>
        .ok { s with license := some rec, last_refresh := some now, stored := some rec }

/-- `deactivate` (licensing.py lines 238-255): clears the in-memory state and
deletes the persisted file. -/
def deactivate (s : ManagerState) : Except String ManagerState :=
  match s.license_string with
  | none => .error "No license has been activated."
  | some ks =>
    if ks = "" then .error "No license has been activated."
    else .ok { license := none, license_string := none, last_refresh := none, stored := none }

/-- `_load_state` run at construction (licensing.py lines 257-271): `none`
models an absent storage file, `some none` a file whose content is empty or
fails to decode (state cleared, no error), `some (some lic)` a decoded
record. -/
def load_state (file : Option (Option LicenseKey)) : ManagerState :=
  match file with
  | none => { license := none, license_string := none, last_refresh := none, stored := none }
  | some none => { license := none, license_string := none, last_refresh := none, stored := none }
  | some (some lic) =>
    { license := some lic, license_string := some lic.key, last_refresh := none
    , stored := some lic }

/-- A fresh manager instance with no persisted file. -/
def fresh_state : ManagerState :=
  load_state none

/-- One public manager operation together with the external inputs (authority
response, wall-clock) consumed during it. -/
inductive Op where
  | act (key : String) (resp : AuthorityResp) (now : DateTime)
  | ref (resp : AuthorityResp) (now : DateTime)
  | deact
  | stat (now : DateTime)
  | isAct (now : DateTime)
  | inactReason (now : DateTime)

/-- The manager state after one operation. Every raise site in the source
precedes any assignment to the manager fields, so a raising operation leaves
the state unchanged; the read operations do not write (the background refresh
that `status()` may spawn is a separate `Op.ref` in a trace). -/
def step (cfg : Config) (env : Env) (s : ManagerState) : Op → ManagerState
  | .act k resp now =>
    match activate cfg env resp now s k with
    | .ok s2 => s2
    | .error _ => s
  | .ref resp now =>
    match refresh cfg resp now s with
    | .ok s2 => s2
    | .error _ => s
  | .deact =>
    match deactivate s with
    | .ok s2 => s2
    | .error _ => s
  | .stat _ => s
  | .isAct _ => s
  | .inactReason _ => s

/-- The record/key coupling invariant: a license record is cached exactly
when a license key string is cached. -/
def record_key_inv (s : ManagerState) : Prop :=
  s.license = none ↔ s.license_string = none

/-- Concrete configuration used by witnesses. -/
def cfgW : Config :=
  { LICENSE_ACCESS_TOKEN := "token-123", LICENSE_RSA_PUBLIC_KEY := "rsa-key"
  , LICENSE_PRODUCT_ID := 31405 }

/-- Concrete machine-identity check used by witnesses: the record is bound to
the local machine when its activated machines list the local code. -/
def envW : Env :=
  { IsOnRightMachine := fun lic => lic.activated_machines.contains "machine-1" }

/-- Concrete wall-clock instant used by witnesses. -/
def nowW : DateTime :=
  { year := 2024, month := 6, day := 15, hour := 12, minute := 0, second := 0 }

/-- Concrete unblocked, unexpired license record used by witnesses. -/
def recW : LicenseKey :=
  { key := "ABCD-1234-EFGH-5678", product_id := 31405
  , customer := some { Name := some "Test Customer", Email := some "tc@example.com" }
  , expires := some { year := 2025, month := 1, day := 1, hour := 0, minute := 0, second := 0 }
  , created := some { year := 2024, month := 1, day := 1, hour := 0, minute := 0, second := 0 }
  , sign_date := some { year := 2024, month := 6, day := 1, hour := 0, minute := 0, second := 0 }
  , max_no_of_machines := 3, activated_machines := ["machine-1"], block := false }

/-- Successful authority response returning `recW`. -/
def respW : AuthorityResp :=
  { record := some recW, message := "" }

/-- Failed authority response whose message names blocking. -/
def respBlocked : AuthorityResp :=
  { record := none, message := "The license Key is BLOCKED." }

/-- The state committed by a successful activation of `recW` at `nowW`. -/
def stateW : ManagerState :=
  { license := some recW, license_string := some recW.key, last_refresh := some nowW
  , stored := some recW }

/-- `recW` with the blocked flag raised. -/
def recBl : LicenseKey :=
  { recW with block := true }

/-- A state caching the blocked record `recBl`. -/
def stateBl : ManagerState :=
  { license := some recBl, license_string := some recBl.key, last_refresh := some nowW
  , stored := some recBl }

theorem string_toList_append (s t : String) : (s ++ t).toList = s.toList ++ t.toList := by
  cases s with
  | mk a => cases t with
    | mk b => rfl

theorem matchFront_subset {p l : List Char} (h : matchFront p l = true) : ∀ c ∈ p, c ∈ l := by
  induction p generalizing l with
  | nil => intro c hc; simp at hc
  | cons a as ih =>
    cases l with
    | nil => simp [matchFront] at h
    | cons b bs =>
      simp only [matchFront] at h
      by_cases hab : a = b
      · rw [if_pos hab] at h
        intro c hc
        rcases List.mem_cons.mp hc with hca | hmem
        · subst hca; exact hab ▸ List.mem_cons_self _ _
        · exact List.mem_cons_of_mem _ (ih h c hmem)
      · rw [if_neg hab] at h; simp at h

theorem hasSub_subset {p l : List Char} (h : hasSub p l = true) : ∀ c ∈ p, c ∈ l := by
  induction l with
  | nil => simp only [hasSub] at h; exact matchFront_subset h
  | cons b bs ih =>
    simp only [hasSub, Bool.or_eq_true] at h
    rcases h with h | h
    · exact matchFront_subset h
    · intro c hc; exact List.mem_cons_of_mem _ (ih h c hc)

theorem matchFront_self_append (p r : List Char) : matchFront p (p ++ r) = true := by
  induction p with
  | nil => simp [matchFront]
  | cons a as ih => simp [matchFront, ih]

theorem hasSub_of_matchFront {p l : List Char} (h : matchFront p l = true) :
    hasSub p l = true := by
  cases l with
  | nil => simpa [hasSub] using h
  | cons b bs => simp [hasSub, h]

theorem hasSub_cons (p l : List Char) (c : Char) (h : hasSub p l = true) :
    hasSub p (c :: l) = true := by
  simp [hasSub, h]

theorem hasSub_append (p a l : List Char) (h : hasSub p l = true) :
    hasSub p (a ++ l) = true := by
  induction a with
  | nil => simpa using h
  | cons x xs ih => simpa only [List.cons_append] using hasSub_cons _ _ x ih

theorem containsSub_middle (x y z : String) : containsSub (x ++ y ++ z) y = true := by
  unfold containsSub
  rw [string_toList_append, string_toList_append, List.append_assoc]
  exact hasSub_append _ _ _ (hasSub_of_matchFront (matchFront_self_append _ _))

theorem dash_mem_dateYmd (t : DateTime) : '-' ∈ (DateTime.dateYmd t).toList := by
  unfold DateTime.dateYmd
  rw [string_toList_append, string_toList_append, string_toList_append]
  simp [List.mem_append]

theorem no_dash_no_date {m : String} (hm : '-' ∉ m.toList) (e : DateTime) :
    containsSub m (DateTime.dateYmd e) = false := by
  cases hc : containsSub m (DateTime.dateYmd e)
  · rfl
  · exact absurd (hasSub_subset hc '-' (dash_mem_dateYmd e)) hm

theorem activate_ok {cfg : Config} {env : Env} {resp : AuthorityResp} {now : DateTime}
    {s : ManagerState} {k : String} {s2 : ManagerState}
    (h : activate cfg env resp now s k = .ok s2) :
    trimStr k ≠ "" ∧ cfg.LICENSE_ACCESS_TOKEN ≠ "" ∧ cfg.LICENSE_RSA_PUBLIC_KEY ≠ "" ∧
    ∃ rec, resp.record = some rec ∧ env.IsOnRightMachine rec = true ∧
      (∀ e, rec.expires = some e → DateTime.lt e now = false) ∧
      s2 = { license := some rec, license_string := some rec.key
           , last_refresh := some now, stored := some rec } := by
  unfold activate at h
  split at h
  · exact absurd h (by simp)
  next hkey =>
    split at h
    · exact absurd h (by simp)
    next htok =>
      split at h
      · exact absurd h (by simp)
      next hrsa =>
        split at h
        next hrec => exact absurd h (by simp)
        next rec hrec =>
          split at h
          · exact absurd h (by simp)
          next hmach =>
            simp only [Bool.not_eq_true', Bool.not_eq_false] at hmach
            split at h
            next e hexp =>
              split at h
              · exact absurd h (by simp)
              next hlt =>
                cases h
                refine ⟨hkey, htok, hrsa, rec, hrec, hmach, ?_, rfl⟩
                intro e2 he2
                rw [hexp] at he2
                cases he2
                simpa using hlt
            next hexp =>
              cases h
              refine ⟨hkey, htok, hrsa, rec, hrec, hmach, ?_, rfl⟩
              intro e2 he2
              rw [hexp] at he2
              cases he2

theorem refresh_ok {cfg : Config} {resp : AuthorityResp} {now : DateTime}
    {s : ManagerState} {s2 : ManagerState}
    (h : refresh cfg resp now s = .ok s2) :
    (∃ ks, s.license_string = some ks ∧ ks ≠ "") ∧
    ((∃ rec, resp.record = some rec ∧
        s2 = { s with license := some rec, last_refresh := some now, stored := some rec }) ∨
     (∃ ex, resp.record = none ∧ s.license = some ex ∧
        s2 = { s with license := some { ex with block := true }
                    , last_refresh := some now
                    , stored := some { ex with block := true } })) := by
  unfold refresh at h
  split at h
  · exact absurd h (by simp)
  next ks hks =>
    split at h
    · exact absurd h (by simp)
    next hke =>
      split at h
      · exact absurd h (by simp)
      next htok =>
        split at h
        · exact absurd h (by simp)
        next hrsa =>
          split at h
          next hrec =>
            split at h
            next hmsg =>
              split at h
              next ex hex =>
                rw [if_neg (show ¬(containsSub (lowerStr "License refresh failed.") "blocked" = true) from by decide)] at h
                exact absurd h (by simp)
              next hex =>
                simp at h
            next hmsg =>
              split at h
              next ex hex =>
                by_cases hb : containsSub (lowerStr resp.message) "blocked" = true
                · rw [if_pos hb] at h
                  cases h
                  exact ⟨⟨ks, hks, hke⟩, Or.inr ⟨ex, hrec, hex, rfl⟩⟩
                · rw [if_neg hb] at h
                  exact absurd h (by simp)
              next hex =>
                simp at h
          next rec hrec =>
            cases h
            exact ⟨⟨ks, hks, hke⟩, Or.inl ⟨rec, hrec, rfl⟩⟩

theorem deactivate_ok {s s2 : ManagerState} (h : deactivate s = .ok s2) :
    s2 = { license := none, license_string := none, last_refresh := none, stored := none } := by
  unfold deactivate at h
  split at h
  · exact absurd h (by simp)
  next ks hks =>
    split at h
    · exact absurd h (by simp)
    · cases h; rfl

/-- C9: the key-masking function strips hyphens and spaces, returns the
stripped remainder unmasked when it has at most 4 characters, and otherwise
returns "***" followed by exactly the last 4 characters of the remainder;
masking "ABCD-1234-EFGH-5678" yields "***5678" and masking "AB" yields "AB". -/
theorem c9_mask_key (k : String) (hk : k ≠ "") :
    ((stripKey k).length ≤ 4 → mask_key (some k) = some (stripKey k))
    ∧ (4 < (stripKey k).length →
        mask_key (some k) =
          some ("***" ++ ((stripKey k).toList.drop ((stripKey k).toList.length - 4)).asString)
        ∧ ((stripKey k).toList.drop ((stripKey k).toList.length - 4)).length = 4)
    ∧ mask_key (some "ABCD-1234-EFGH-5678") = some "***5678"
    ∧ mask_key (some "AB") = some "AB" := by
  have hlen : (stripKey k).toList.length = (stripKey k).length := rfl
  refine ⟨?_, ?_, by decide, by decide⟩
  · intro hle
    simp only [mask_key, if_neg hk, if_pos hle]
  · intro hgt
    constructor
    · simp only [mask_key, if_neg hk, if_neg (show ¬((stripKey k).length ≤ 4) from by omega)]
    · rw [List.length_drop]
      omega

/-- C9 witness: the masking theorem applied to the concrete key of the spec
example. -/
theorem c9_mask_key_witness : mask_key (some "ABCD-1234-EFGH-5678") = some "***5678" :=
  (c9_mask_key "ABCD-1234-EFGH-5678" (by decide)).2.2.1

/-- C1: `is_active()` returns true iff a record is cached, its blocked flag
is false, its expiry is absent or not in the past, and the machine-identity
check matches; a fresh instance with no persisted file is inactive and its
status message indicates the product is not activated. -/
theorem c1_is_active_iff (cfg : Config) (env : Env) (now : DateTime) (s : ManagerState) :
    (is_active env now s = true ↔
      ∃ r, s.license = some r ∧ r.block = false ∧
        (∀ e, r.expires = some e → DateTime.lt e now = false) ∧
        env.IsOnRightMachine r = true)
    ∧ is_active env now fresh_state = false
    ∧ (status cfg env now fresh_state).message =
        some "BeatChecker is not activated. Please enter a license key."
    ∧ containsSub "BeatChecker is not activated. Please enter a license key." "not activated"
        = true := by
  refine ⟨?_, rfl, rfl, by decide⟩
  constructor
  · intro h
    unfold is_active is_active_unlocked at h
    split at h
    · simp at h
    next lic hl =>
      split at h
      · simp at h
      next hb =>
        split at h
        · simp at h
        next he =>
          refine ⟨lic, hl, by simpa using hb, ?_, h⟩
          intro e hee
          have hf : expired_before lic now = false := by simpa using he
          unfold expired_before at hf
          rw [hee] at hf
          exact hf
  · rintro ⟨r, hl, hb, hexp, hm⟩
    have he : expired_before r now = false := by
      unfold expired_before
      cases hre : r.expires with
      | none => rfl
      | some e => exact hexp e hre
    unfold is_active is_active_unlocked
    rw [hl]
    simp [hb, he, hm]

/-- C8: refresh() and deactivate() each fail with the not-activated error
when no license key string is cached, and leave the state unchanged. -/
theorem c8_not_activated (cfg : Config) (env : Env) (resp : AuthorityResp) (now : DateTime)
    (s : ManagerState) (h : s.license_string = none) :
    refresh cfg resp now s = .error "No license has been activated."
    ∧ deactivate s = .error "No license has been activated."
    ∧ step cfg env s (Op.ref resp now) = s
    ∧ step cfg env s Op.deact = s := by
  have h1 : refresh cfg resp now s = .error "No license has been activated." := by
    unfold refresh
    rw [h]
  have h2 : deactivate s = .error "No license has been activated." := by
    unfold deactivate
    rw [h]
  refine ⟨h1, h2, ?_, ?_⟩
  · show (match refresh cfg resp now s with | .ok s2 => s2 | .error _ => s) = s
    rw [h1]
  · show (match deactivate s with | .ok s2 => s2 | .error _ => s) = s
    rw [h2]

/-- C8 witness: both operations on a fresh instance with nothing cached. -/
theorem c8_not_activated_witness :
    refresh cfgW respW nowW fresh_state = .error "No license has been activated."
    ∧ deactivate fresh_state = .error "No license has been activated."
    ∧ step cfgW envW fresh_state (Op.ref respW nowW) = fresh_state
    ∧ step cfgW envW fresh_state Op.deact = fresh_state :=
  c8_not_activated cfgW envW respW nowW fresh_state rfl

/-- C4: `inactive_reason()` checks Unactivated, then Blocked, then Expired,
then WrongMachine and returns the first matching message; a blocked record
reports blocking (never an expiry date) even when also expired, and an
expired record's reason contains the expiry date formatted YYYY-MM-DD. -/
theorem c4_inactive_reason_order (env : Env) (now : DateTime) (s : ManagerState) :
    (s.license = none →
      inactive_reason env now s = "BeatChecker is not activated. Please enter a license key.")
    ∧ (∀ r, s.license = some r → r.block = true →
        inactive_reason env now s = "Your license has been blocked. Please contact support."
        ∧ containsSub "Your license has been blocked. Please contact support." "blocked" = true
        ∧ ∀ e : DateTime,
            containsSub "Your license has been blocked. Please contact support."
              (DateTime.dateYmd e) = false)
    ∧ (∀ r e, s.license = some r → r.block = false → r.expires = some e →
        DateTime.lt e now = true →
        inactive_reason env now s = "Your license expired on " ++ DateTime.dateYmd e ++ "."
        ∧ containsSub (inactive_reason env now s) (DateTime.dateYmd e) = true)
    ∧ (∀ r, s.license = some r → r.block = false →
        (∀ e, r.expires = some e → DateTime.lt e now = false) →
        env.IsOnRightMachine r = false →
        inactive_reason env now s = "This license is not activated on this machine.") := by
  refine ⟨?_, ?_, ?_, ?_⟩
  · intro h
    unfold inactive_reason inactive_reason_unlocked
    rw [h]
  · intro r hl hb
    refine ⟨?_, by decide, fun e => no_dash_no_date (by decide) e⟩
    unfold inactive_reason inactive_reason_unlocked
    rw [hl]
    simp [hb]
  · intro r e hl hb hexp hlt
    have hr : inactive_reason env now s = "Your license expired on " ++ DateTime.dateYmd e ++ "." := by
      unfold inactive_reason inactive_reason_unlocked
      rw [hl]
      simp [hb, hexp, hlt]
    refine ⟨hr, ?_⟩
    rw [hr]
    exact containsSub_middle _ _ _
  · intro r hl hb hexp hm
    unfold inactive_reason inactive_reason_unlocked
    rw [hl]
    cases hre : r.expires with
    | none => simp [hb, hm, hre]
    | some e => simp [hb, hm, hre, hexp e hre]

/-- C5: the should-refresh predicate evaluated by `status()` is false with no
cached key, false when the cached record is blocked, true when a key is
cached and no refresh ever happened, and otherwise true iff more than 3600
seconds of wall-clock time passed since the last refresh. -/
theorem c5_should_refresh_policy (now : DateTime) (s : ManagerState) :
    status_triggers_refresh now s = should_refresh now s
    ∧ (s.license_string = none → should_refresh now s = false)
    ∧ (∀ r, s.license = some r → r.block = true → should_refresh now s = false)
    ∧ (∀ ks, s.license_string = some ks → ks ≠ "" →
        (∀ r, s.license = some r → r.block = false) → s.last_refresh = none →
        should_refresh now s = true)
    ∧ (∀ ks t, s.license_string = some ks → ks ≠ "" →
        (∀ r, s.license = some r → r.block = false) → s.last_refresh = some t →
        (should_refresh now s = true ↔ 3600 < now.toSeconds - t.toSeconds)) := by
  refine ⟨rfl, ?_, ?_, ?_, ?_⟩
  · intro h
    unfold should_refresh
    rw [h]
  · intro r hr hb
    unfold should_refresh
    cases hstr : s.license_string with
    | none => rfl
    | some ks =>
      by_cases hke : ks = ""
      · simp [hke]
      · simp [hke, hr, hb]
  · intro ks hstr hke hnb hlr
    have hbf : (match s.license with | some lic => lic.block | none => false) = false := by
      cases hl : s.license with
      | none => rfl
      | some lic => exact hnb lic hl
    unfold should_refresh
    rw [hstr]
    simp [hke, hbf, hlr]
  · intro ks t hstr hke hnb hlr
    have hbf : (match s.license with | some lic => lic.block | none => false) = false := by
      cases hl : s.license with
      | none => rfl
      | some lic => exact hnb lic hl
    unfold should_refresh
    rw [hstr]
    simp [hke, hbf, hlr]

/-- C3: `activate()` fails with a typed error and leaves the state (cached
record, persisted file, activity) unchanged when the key is blank after
trimming, the access token is unconfigured, the authority rejects the call,
the returned record is not bound to this machine, or the returned record is
already expired; a commit happens only when none of those failures hold. -/
theorem c3_activate_failure_cases (cfg : Config) (env : Env) (resp : AuthorityResp)
    (now : DateTime) (s : ManagerState) (license_key : String) :
    (trimStr license_key = "" →
      activate cfg env resp now s license_key = .error "A license key is required.")
    ∧ (trimStr license_key ≠ "" → cfg.LICENSE_ACCESS_TOKEN = "" →
      activate cfg env resp now s license_key =
        .error "Licensing is not configured. Missing access token.")
    ∧ (trimStr license_key ≠ "" → cfg.LICENSE_ACCESS_TOKEN ≠ "" →
      cfg.LICENSE_RSA_PUBLIC_KEY ≠ "" → resp.record = none → resp.message ≠ "" →
      activate cfg env resp now s license_key = .error resp.message)
    ∧ (∀ rec, trimStr license_key ≠ "" → cfg.LICENSE_ACCESS_TOKEN ≠ "" →
      cfg.LICENSE_RSA_PUBLIC_KEY ≠ "" → resp.record = some rec →
      env.IsOnRightMachine rec = false →
      activate cfg env resp now s license_key =
        .error "This license cannot be activated on this machine.")
    ∧ (∀ rec e, trimStr license_key ≠ "" → cfg.LICENSE_ACCESS_TOKEN ≠ "" →
      cfg.LICENSE_RSA_PUBLIC_KEY ≠ "" → resp.record = some rec →
      env.IsOnRightMachine rec = true → rec.expires = some e → DateTime.lt e now = true →
      activate cfg env resp now s license_key =
        .error ("This license expired on " ++ DateTime.dateYmd e ++ " and cannot be activated."))
    ∧ (∀ err, activate cfg env resp now s license_key = .error err →
      step cfg env s (Op.act license_key resp now) = s)
    ∧ (∀ s2, activate cfg env resp now s license_key = .ok s2 →
      trimStr license_key ≠ "" ∧ cfg.LICENSE_ACCESS_TOKEN ≠ "" ∧
      ∃ rec, resp.record = some rec ∧ env.IsOnRightMachine rec = true ∧
        (∀ e, rec.expires = some e → DateTime.lt e now = false) ∧
        s2 = { license := some rec, license_string := some rec.key
             , last_refresh := some now, stored := some rec }) := by
  refine ⟨?_, ?_, ?_, ?_, ?_, ?_, ?_⟩
  · intro hk
    simp [activate, hk]
  · intro hk ht
    simp [activate, hk, ht]
  · intro hk ht hr hrec hm
    simp [activate, hk, ht, hr, hrec, hm]
  · intro rec hk ht hr hrec hmach
    simp [activate, hk, ht, hr, hrec, hmach]
  · intro rec e hk ht hr hrec hmach hexp hlt
    simp [activate, hk, ht, hr, hrec, hmach, hexp, hlt]
  · intro err herr
    show (match activate cfg env resp now s license_key with | .ok s2 => s2 | .error _ => s) = s
    rw [herr]
  · intro s2 hok
    obtain ⟨hk, ht, _, rest⟩ := activate_ok hok
    exact ⟨hk, ht, rest⟩

/-- C2: a failed refresh whose authority message names blocking while a
record is cached patches only the blocked flag of the cached record, stamps
the last-refresh time, persists, and returns without raising; a failed
refresh whose message does not name blocking raises with the authority's
message and leaves the state unchanged. -/
theorem c2_refresh_failure_paths (cfg : Config) (resp : AuthorityResp) (now : DateTime)
    (s : ManagerState) (ks : String)
    (hks : s.license_string = some ks) (hke : ks ≠ "")
    (htok : cfg.LICENSE_ACCESS_TOKEN ≠ "") (hrsa : cfg.LICENSE_RSA_PUBLIC_KEY ≠ "")
    (hfail : resp.record = none) :
    (∀ existing, s.license = some existing →
      containsSub (lowerStr resp.message) "blocked" = true →
      refresh cfg resp now s =
        .ok { s with license := some { existing with block := true }
                   , last_refresh := some now
                   , stored := some { existing with block := true } }
      ∧ ({ existing with block := true } : LicenseKey).key = existing.key
      ∧ ({ existing with block := true } : LicenseKey).customer = existing.customer
      ∧ ({ existing with block := true } : LicenseKey).expires = existing.expires
      ∧ ({ existing with block := true } : LicenseKey).block = true)
    ∧ (resp.message ≠ "" → containsSub (lowerStr resp.message) "blocked" = false →
      refresh cfg resp now s = .error resp.message)
    ∧ (∀ err, refresh cfg resp now s = .error err →
      ∀ env, step cfg env s (Op.ref resp now) = s) := by
  refine ⟨?_, ?_, ?_⟩
  · intro ex hex hcon
    have hmne : resp.message ≠ "" := by
      intro he
      rw [he] at hcon
      exact absurd hcon (by decide)
    refine ⟨?_, rfl, rfl, rfl, rfl⟩
    unfold refresh
    rw [hks]
    simp [hke, htok, hrsa, hfail, hmne, hcon, hex]
  · intro hmne hcon
    unfold refresh
    rw [hks]
    simp [hke, htok, hrsa, hfail, hmne, hcon]
  · intro err herr env
    show (match refresh cfg resp now s with | .ok s2 => s2 | .error _ => s) = s
    rw [herr]

/-- C2 witness: a cached unblocked record plus a failed response whose
message contains "BLOCKED" yields the committed degraded-mode patch. -/
theorem c2_refresh_failure_witness :
    refresh cfgW respBlocked nowW stateW =
      .ok { stateW with license := some { recW with block := true }
                      , last_refresh := some nowW
                      , stored := some { recW with block := true } } :=
  ((c2_refresh_failure_paths cfgW respBlocked nowW stateW "ABCD-1234-EFGH-5678" rfl
    (by decide) (by decide) (by decide) rfl).1 recW rfl (by decide)).1

/-- C6 (amended): a successful activate or refresh commit stamps the internal
last-refresh timestamp with the client-local wall-clock `now`, but the
`last_validated_at` value `status()` reports is the committed record's
`sign_date` (the authority's signature timestamp), not that commit time. -/
theorem c6_last_validated_reporting (cfg : Config) (env : Env) (resp : AuthorityResp)
    (now now2 : DateTime) (s s2 : ManagerState) (k : String) :
    (activate cfg env resp now s k = .ok s2 →
      s2.last_refresh = some now ∧
      ∃ rec, resp.record = some rec ∧
        (status cfg env now2 s2).last_validated_at = Option.map DateTime.isoformat rec.sign_date)
    ∧ (refresh cfg resp now s = .ok s2 →
      s2.last_refresh = some now ∧
      ∃ lic, s2.license = some lic ∧
        (status cfg env now2 s2).last_validated_at = Option.map DateTime.isoformat lic.sign_date) := by
  constructor
  · intro h
    obtain ⟨_, _, _, rec, hrec, _, _, hs2⟩ := activate_ok h
    subst hs2
    refine ⟨rfl, rec, hrec, ?_⟩
    cases hsd : rec.sign_date with
    | none => simp [status, hsd]
    | some t => simp [status, hsd]
  · intro h
    obtain ⟨_, hcase⟩ := refresh_ok h
    rcases hcase with ⟨rec, _, hs2⟩ | ⟨ex, _, _, hs2⟩
    · subst hs2
      refine ⟨rfl, rec, rfl, ?_⟩
      cases hsd : rec.sign_date with
      | none => simp [status, hsd]
      | some t => simp [status, hsd]
    · subst hs2
      refine ⟨rfl, { ex with block := true }, rfl, ?_⟩
      cases hsd : ex.sign_date with
      | none => simp [status, hsd]
      | some t => simp [status, hsd]

/-- C6 counterexample: a concrete successful activation commits at wall-clock
2024-06-15T12:00:00, yet the `last_validated_at` reported by `status()` is
the record's signature timestamp 2024-06-01T00:00:00, not the commit time. -/
theorem c6_last_validated_counterexample :
    activate cfgW envW respW nowW fresh_state "ABCD-1234-EFGH-5678" = .ok stateW
    ∧ stateW.last_refresh = some nowW
    ∧ (status cfgW envW nowW stateW).last_validated_at = some "2024-06-01T00:00:00"
    ∧ DateTime.isoformat nowW = "2024-06-15T12:00:00"
    ∧ (status cfgW envW nowW stateW).last_validated_at ≠ some (DateTime.isoformat nowW) := by
  refine ⟨rfl, rfl, rfl, rfl, by decide⟩

/-- C7: the blocked flag is sticky. If the cached record is blocked before an
operation and the record cached afterwards is unblocked, the operation was an
activate or refresh that committed a successful authority response whose
returned record is unblocked; reads and failed refreshes never clear it. -/
theorem c7_blocked_sticky (cfg : Config) (env : Env) (s : ManagerState) (op : Op)
    (r r2 : LicenseKey) (h1 : s.license = some r) (h2 : r.block = true)
    (h3 : (step cfg env s op).license = some r2) (h4 : r2.block = false) :
    ∃ resp now rec, resp.record = some rec ∧ rec.block = false ∧ r2 = rec ∧
      ((∃ k, op = Op.act k resp now) ∨ op = Op.ref resp now) := by
  cases op with
  | stat t =>
    rw [show step cfg env s (Op.stat t) = s from rfl, h1] at h3
    injection h3 with he
    subst he
    simp [h2] at h4
  | isAct t =>
    rw [show step cfg env s (Op.isAct t) = s from rfl, h1] at h3
    injection h3 with he
    subst he
    simp [h2] at h4
  | inactReason t =>
    rw [show step cfg env s (Op.inactReason t) = s from rfl, h1] at h3
    injection h3 with he
    subst he
    simp [h2] at h4
  | deact =>
    cases hd : deactivate s with
    | error e =>
      rw [show step cfg env s Op.deact
            = (match deactivate s with | .ok s2 => s2 | .error _ => s) from rfl, hd, h1] at h3
      injection h3 with he
      subst he
      simp [h2] at h4
    | ok s2 =>
      rw [show step cfg env s Op.deact
            = (match deactivate s with | .ok s2 => s2 | .error _ => s) from rfl, hd,
          deactivate_ok hd] at h3
      simp at h3
  | act k resp t =>
    cases ha : activate cfg env resp t s k with
    | error e =>
      rw [show step cfg env s (Op.act k resp t)
            = (match activate cfg env resp t s k with | .ok s2 => s2 | .error _ => s) from rfl,
          ha, h1] at h3
      injection h3 with he
      subst he
      simp [h2] at h4
    | ok s2 =>
      obtain ⟨_, _, _, rec, hrec, _, _, hs2⟩ := activate_ok ha
      rw [show step cfg env s (Op.act k resp t)
            = (match activate cfg env resp t s k with | .ok s2 => s2 | .error _ => s) from rfl,
          ha, hs2] at h3
      simp only [] at h3
      injection h3 with he
      subst he
      exact ⟨resp, t, rec, hrec, h4, rfl, Or.inl ⟨k, rfl⟩⟩
  | ref resp t =>
    cases hr : refresh cfg resp t s with
    | error e =>
      rw [show step cfg env s (Op.ref resp t)
            = (match refresh cfg resp t s with | .ok s2 => s2 | .error _ => s) from rfl,
          hr, h1] at h3
      injection h3 with he
      subst he
      simp [h2] at h4
    | ok s2 =>
      obtain ⟨_, hcase⟩ := refresh_ok hr
      rw [show step cfg env s (Op.ref resp t)
            = (match refresh cfg resp t s with | .ok s2 => s2 | .error _ => s) from rfl,
          hr] at h3
      rcases hcase with ⟨rec, hrec, hs2⟩ | ⟨ex, hrec, hex, hs2⟩
      · rw [hs2] at h3
        simp only [] at h3
        injection h3 with he
        subst he
        exact ⟨resp, t, rec, hrec, h4, rfl, Or.inr rfl⟩
      · rw [hs2] at h3
        simp only [] at h3
        injection h3 with he
        rw [← he] at h4
        simp at h4

/-- C7 witness: from a blocked cached record, a refresh committing a
successful response with an unblocked record is exactly the permitted way
the flag clears. -/
theorem c7_blocked_sticky_witness :
    ∃ resp now rec, resp.record = some rec ∧ rec.block = false ∧ recW = rec ∧
      ((∃ k, Op.ref respW nowW = Op.act k resp now) ∨ Op.ref respW nowW = Op.ref resp now) :=
  c7_blocked_sticky cfgW envW stateBl (Op.ref respW nowW) recBl recW rfl rfl rfl rfl

/-- C10: every operation preserves "a record is cached iff a key string is
cached" (as does loading from disk); the status snapshot reports a null
masked key exactly for a missing record (a cached record with a nonempty key
always yields a masked value), and masking a missing or empty key is null. -/
theorem c10_record_key_invariant (cfg : Config) (env : Env) (now : DateTime)
    (s : ManagerState) (op : Op) (file : Option (Option LicenseKey)) :
    record_key_inv (load_state file)
    ∧ (record_key_inv s → record_key_inv (step cfg env s op))
    ∧ (s.license = none → (status cfg env now s).license_key = none)
    ∧ (∀ r, s.license = some r → r.key ≠ "" → (status cfg env now s).license_key ≠ none)
    ∧ mask_key none = none ∧ mask_key (some "") = none := by
  refine ⟨?_, ?_, ?_, ?_, rfl, rfl⟩
  · rcases file with _ | _ | lic <;> simp [load_state, record_key_inv]
  · intro hinv
    cases op with
    | act k resp t =>
      cases ha : activate cfg env resp t s k with
      | error e =>
        rw [show step cfg env s (Op.act k resp t)
              = (match activate cfg env resp t s k with | .ok s2 => s2 | .error _ => s) from rfl,
            ha]
        exact hinv
      | ok s2 =>
        rw [show step cfg env s (Op.act k resp t)
              = (match activate cfg env resp t s k with | .ok s2 => s2 | .error _ => s) from rfl,
            ha]
        obtain ⟨_, _, _, rec, _, _, _, hs2⟩ := activate_ok ha
        subst hs2
        simp [record_key_inv]
    | ref resp t =>
      cases hr : refresh cfg resp t s with
      | error e =>
        rw [show step cfg env s (Op.ref resp t)
              = (match refresh cfg resp t s with | .ok s2 => s2 | .error _ => s) from rfl,
            hr]
        exact hinv
      | ok s2 =>
        rw [show step cfg env s (Op.ref resp t)
              = (match refresh cfg resp t s with | .ok s2 => s2 | .error _ => s) from rfl,
            hr]
        obtain ⟨⟨ks, hks, _⟩, hcase⟩ := refresh_ok hr
        rcases hcase with ⟨rec, _, hs2⟩ | ⟨ex, _, _, hs2⟩ <;> subst hs2 <;>
          simp [record_key_inv, hks]
    | deact =>
      cases hd : deactivate s with
      | error e =>
        rw [show step cfg env s Op.deact
              = (match deactivate s with | .ok s2 => s2 | .error _ => s) from rfl, hd]
        exact hinv
      | ok s2 =>
        rw [show step cfg env s Op.deact
              = (match deactivate s with | .ok s2 => s2 | .error _ => s) from rfl, hd,
            deactivate_ok hd]
        simp [record_key_inv]
    | stat t => exact hinv
    | isAct t => exact hinv
    | inactReason t => exact hinv
  · intro h
    simp [status, h]
  · intro r hr hk
    have hlk : (status cfg env now s).license_key = mask_key (some r.key) := by
      simp [status, hr]
    rw [hlk]
    simp only [mask_key, if_neg hk]
    split <;> simp
